import Mathlib

/-!
Verification of the swc frame-update orchestrator and evdev input pump.

The definitions below are a shallow embedding of `src/libswc/compositor.c`
and `src/libswc/evdev_device.c`:

* pixman regions become finite sets of integer pixel coordinates
  (a pixman region is a finite union of integer rectangles, hence a finite
  point set; union / intersection / subtraction / translation are the
  corresponding set operations);
* the orchestrator's mutable state (`struct swc_compositor` together with
  the per-output and per-surface state it owns) becomes an explicit state
  record threaded through each translated function;
* 32-bit machine integers become `Nat` / `Int` with an explicit
  `% 4294967296` wherever C wrap-around can matter;
* calls into external collaborators (renderer, DRM master ioctls, wayland
  event loop, seat callbacks) are recorded as returned effect values.
-/

namespace Swc

/-! ## Regions -/

/-- A pixman region, modelled as the finite set of integer pixels it covers. -/
abbrev Region := Finset (ℤ × ℤ)

/-- `pixman_region32_translate`: shift every pixel of the region by `(dx, dy)`. -/
def region_translate (r : Region) (dx dy : ℤ) : Region :=
  r.image fun p => (p.1 + dx, p.2 + dy)

/-- The region of the rectangle at `(x, y)` of size `w × h`
(`pixman_region32_init_rect`). -/
def region_rect (x y w h : ℤ) : Region :=
  Finset.Ico x (x + w) ×ˢ Finset.Ico y (y + h)

/-- Integer geometry `(x, y, width, height)` in the global coordinate space. -/
structure Geometry where
  x : ℤ
  y : ℤ
  width : ℤ
  height : ℤ
deriving DecidableEq

/-- The rectangle region covered by a geometry. -/
def rect_of (g : Geometry) : Region :=
  region_rect g.x g.y g.width g.height

/-! ## Compositor data model -/

/-- A client surface together with the compositor-class state the
orchestrator owns for it (`struct swc_surface` plus
`struct swc_compositor_surface_state`).  `id` stands for the surface's
identity, used to address frame callbacks. -/
structure Surface where
  id : ℕ
  geometry : Geometry
  /-- `surface->state.damage`, in surface-local coordinates. -/
  state_damage : Region
  /-- `surface->state.opaque`, in surface-local coordinates. -/
  state_opaque_region : Region
  /-- `class_state->clip`, in global coordinates. -/
  clip : Region
  /-- `class_state->border.damaged`. -/
  border_damaged : Bool
  /-- `class_state->extents`: bounding box of the surface including border. -/
  extents : Geometry
deriving DecidableEq

/-- An output (`struct swc_output`): identity index, geometry in global
coordinates, and the damage painted into its back buffer last frame. -/
structure Output where
  id : ℕ
  geometry : Geometry
  previous_damage : Region
deriving DecidableEq

/-- Modelled from the spec: `SWC_OUTPUT_MASK` lives in `output.h`, which is
not under `src/`; the spec's data model gives each output the identity bit
`id_bit: 2^n`. -/
def SWC_OUTPUT_MASK (o : Output) : ℕ := 1 <<< o.id

/-- The orchestrator state (`struct swc_compositor`).  `idle_enqueued`
counts the calls to `wl_event_loop_add_idle` made so far, so that idle-task
bookkeeping is observable in the model. -/
structure Compositor where
  /-- Front-to-back list: the first surface is topmost. -/
  surfaces : List Surface
  outputs : List Output
  damage : Region
  opaque_region : Region
  scheduled_updates : ℕ
  pending_flips : ℕ
  idle_enqueued : ℕ
deriving DecidableEq

/-- The C expression `x & ~y` on 32-bit masks: clear in `x` every bit set in
`y`.  Written with kernel-accelerated operations; `x ^^^ (x &&& y)` agrees
with bitwise and-not on every bit (see `testBit_mask_clear`). -/
def mask_clear (x y : ℕ) : ℕ := x ^^^ (x &&& y)

/-! ## calculate_damage -/

/-- The opaque region of a surface translated to global coordinates
(`calculate_damage`'s local `surface_opaque`). -/
def translated_opaque_region (s : Surface) : Region :=
  region_translate s.state_opaque_region s.geometry.x s.geometry.y

/-- Accumulator for the surface walk of `calculate_damage`: the opaque and
damage regions built so far and the already-processed surfaces in order. -/
structure CalcAcc where
  opaque_region : Region
  damage : Region
  surfaces : List Surface

/-- One iteration of `calculate_damage`'s `wl_list_for_each` body for a
single surface: snapshot the accumulated opaque region into the surface's
clip, add the surface's translated opaque region, then fold surface damage
and border damage into the compositor damage. -/
def calc_damage_step (acc : CalcAcc) (s : Surface) : CalcAcc :=
  let clip := acc.opaque_region
  let surface_opaque_region := translated_opaque_region s
  let opaque_region := acc.opaque_region ∪ surface_opaque_region
  let fold_damage :=
    if s.state_damage ≠ ∅ then
      (acc.damage ∪ region_translate s.state_damage s.geometry.x s.geometry.y,
       (∅ : Region))
    else
      (acc.damage, s.state_damage)
  let fold_border :=
    if s.border_damaged then
      (fold_damage.1 ∪ (rect_of s.extents \ rect_of s.geometry), false)
    else
      (fold_damage.1, s.border_damaged)
  { opaque_region := opaque_region
    damage := fold_border.1
    surfaces := acc.surfaces ++
      [{ s with clip := clip, state_damage := fold_damage.2,
                border_damaged := fold_border.2 }] }

/-- `calculate_damage`: clear the compositor opaque region, then walk the
surfaces front to back computing clips and accumulating opaque and damage. -/
def calculate_damage (c : Compositor) : Compositor :=
  let acc := c.surfaces.foldl calc_damage_step
    { opaque_region := ∅, damage := c.damage, surfaces := [] }
  { c with opaque_region := acc.opaque_region, damage := acc.damage, surfaces := acc.surfaces }

/-- The union of a list of regions. -/
def union_list (l : List Region) : Region := l.foldr (· ∪ ·) ∅

/-- The surface list produced by `calculate_damage`'s walk, described
directly: each surface's clip is the opaque region accumulated over the
surfaces before it, starting from `op`. -/
def clip_annotate (op : Region) : List Surface → List Surface
  | [] => []
  | s :: rest =>
    { s with clip := op,
             state_damage := if s.state_damage ≠ ∅ then ∅ else s.state_damage,
             border_damaged := if s.border_damaged then false else s.border_damaged }
      :: clip_annotate (op ∪ translated_opaque_region s) rest

/-! ## repaint_output and perform_update -/

/-- `repaint_output`: intersect the compositor damage with the output
geometry, swap it with the output's previous damage, and subtract the total
(new ∪ previous) from the compositor damage.  The regions handed to the
external renderer (`total` and `base_damage = total minus the opaque region`) and the plane
flip only feed black-box collaborators and do not change orchestrator
state. -/
def repaint_output (c : Compositor) (o : Output) : Compositor × Output :=
  let damage := c.damage ∩ rect_of o.geometry
  let previous_damage := o.previous_damage
  let o' := { o with previous_damage := damage }
  let total := damage ∪ previous_damage
  ({ c with damage := c.damage \ total }, o')

/-- The per-output loop of `perform_update`: walk the output list, repaint
each output whose bit is in `updates`, threading the compositor damage.
Returns the final state, the rebuilt output list, and the ids repainted in
order. -/
def repaint_scheduled (c : Compositor) (updates : ℕ) :
    List Output → Compositor × List Output × List ℕ
  | [] => (c, [], [])
  | o :: rest =>
    if updates &&& SWC_OUTPUT_MASK o ≠ 0 then
      let co := repaint_output c o
      let r := repaint_scheduled co.1 updates rest
      (r.1, co.2 :: r.2.1, o.id :: r.2.2)
    else
      let r := repaint_scheduled c updates rest
      (r.1, o :: r.2.1, r.2.2)

/-- Result of one `perform_update` invocation: the new state, whether the
damage calculation ran, and the ids of the outputs repainted. -/
structure UpdateResult where
  st : Compositor
  ran_damage_calc : Bool
  repainted : List ℕ
deriving DecidableEq

/-- `perform_update`: service `updates = scheduled_updates & ~pending_flips`;
if non-empty, run the damage calculation, repaint every output whose bit is
in `updates`, then move those bits from `scheduled_updates` into
`pending_flips`. -/
def perform_update (c : Compositor) : UpdateResult :=
  let updates := mask_clear c.scheduled_updates c.pending_flips
  if updates ≠ 0 then
    let c₁ := calculate_damage c
    let r := repaint_scheduled c₁ updates c₁.outputs
    let c₂ := r.1
    ⟨{ c₂ with outputs := r.2.1,
               pending_flips := c₂.pending_flips ||| updates,
               scheduled_updates := mask_clear c₂.scheduled_updates updates },
     true, r.2.2⟩
  else
    ⟨c, false, []⟩

/-! ## swc_compositor_schedule_update -/

/-- `swc_compositor_schedule_update`: return early when the output's bit is
already scheduled; otherwise set it, and enqueue the `perform_update` idle
task only when no update was scheduled before (`idle_enqueued` counts
`wl_event_loop_add_idle` calls). -/
def swc_compositor_schedule_update (c : Compositor) (o : Output) : Compositor :=
  let update_scheduled : Bool := c.scheduled_updates != 0
  if c.scheduled_updates &&& SWC_OUTPUT_MASK o ≠ 0 then
    c
  else
    let c' := { c with scheduled_updates := c.scheduled_updates ||| SWC_OUTPUT_MASK o }
    if !update_scheduled then
      { c' with idle_enqueued := c'.idle_enqueued + 1 }
    else
      c'

/-! ## handle_drm_event and handle_tty_event -/

/-- Result of `handle_drm_event` on a `SWC_DRM_PAGE_FLIP` event: the new
state, whether the frame-callback branch was taken, and the
`(surface id, time)` frame callbacks sent. -/
structure DrmFlipResult where
  st : Compositor
  fired : Bool
  callbacks : List (ℕ × ℕ)
deriving DecidableEq

/-- `handle_drm_event`, `SWC_DRM_PAGE_FLIP` case for the output with index
`oid` at time `t`: clear the output's bit from `pending_flips`; if the
result is zero, send frame callbacks to every surface; finally re-enter
`perform_update` when updates are still scheduled. -/
def handle_drm_event (c : Compositor) (oid t : ℕ) : DrmFlipResult :=
  let pending := mask_clear c.pending_flips (1 <<< oid)
  let c₁ := { c with pending_flips := pending }
  let fired : Bool := pending == 0
  let callbacks := if pending = 0 then c₁.surfaces.map (fun s => (s.id, t)) else []
  let c₂ := if c₁.scheduled_updates ≠ 0 then (perform_update c₁).st else c₁
  ⟨c₂, fired, callbacks⟩

/-- The TTY events dispatched on by `handle_tty_event`. -/
inductive TtyEvent
  | vt_enter
  | vt_leave
deriving DecidableEq

/-- Calls into the DRM collaborator made by `handle_tty_event`. -/
inductive DrmCall
  | set_master
  | drop_master
deriving DecidableEq

/-- `handle_tty_event`: on `SWC_TTY_VT_ENTER` call `swc_drm_set_master`, on
`SWC_TTY_VT_LEAVE` call `swc_drm_drop_master`; the compositor state itself
is not touched. -/
def handle_tty_event (c : Compositor) (ev : TtyEvent) : Compositor × List DrmCall :=
  match ev with
  | .vt_enter => (c, [.set_master])
  | .vt_leave => (c, [.drop_master])

/-! ## handle_key (key-binding matching)

The XKB calls (`xkb_state_key_get_one_sym`, `xkb_state_serialize_mods`,
`xkb_state_mod_mask_remove_consumed`) are external collaborators; their
results — the keysym and the effective modifier mask with consumed
modifiers already removed — are inputs of the model. -/

/-- Modelled from the spec: the `SWC_MOD_*` flag values live in the public
header, which is not under `src/`; the spec's data model makes `ModMask` a
flag set over {CTRL, ALT, SUPER, SHIFT} plus a sentinel `ANY`. -/
def SWC_MOD_CTRL : ℕ := 1

/-- See `SWC_MOD_CTRL`. -/
def SWC_MOD_ALT : ℕ := 2

/-- See `SWC_MOD_CTRL`. -/
def SWC_MOD_LOGO : ℕ := 4

/-- See `SWC_MOD_CTRL`. -/
def SWC_MOD_SHIFT : ℕ := 8

/-- Modelled from the spec: the sentinel `ANY` modifier value that matches
any modifier state (the u32 all-ones value, distinct from every
combination of the four flags above). -/
def SWC_MOD_ANY : ℕ := 4294967295

/-- A key binding (`struct swc_binding`).  `data` stands for the
`(handler, data)` pair: which handler gets invoked with which user data. -/
structure Binding where
  value : ℕ
  modifiers : ℕ
  data : ℕ
deriving DecidableEq

/-- The seat's XKB modifier index table (`seat->xkb.indices`). -/
structure XkbIndices where
  ctrl : ℕ
  alt : ℕ
  super : ℕ
  shift : ℕ
deriving DecidableEq

/-- The translation of the consumed-adjusted XKB modifier mask into SWC
modifier flags performed inside `handle_key`'s binding loop. -/
def modifiers_of_mask (idx : XkbIndices) (mod_mask : ℕ) : ℕ :=
  let m₁ := if mod_mask &&& (1 <<< idx.ctrl) ≠ 0 then SWC_MOD_CTRL else 0
  let m₂ := if mod_mask &&& (1 <<< idx.alt) ≠ 0 then m₁ ||| SWC_MOD_ALT else m₁
  let m₃ := if mod_mask &&& (1 <<< idx.super) ≠ 0 then m₂ ||| SWC_MOD_LOGO else m₂
  if mod_mask &&& (1 <<< idx.shift) ≠ 0 then m₃ ||| SWC_MOD_SHIFT else m₃

/-- The outcome of `handle_key`: whether the event was swallowed (the C
return value), and the `(time, keysym, data)` handler invocation if any. -/
structure KeyResult where
  handled : Bool
  call : Option (ℕ × ℕ × ℕ)
deriving DecidableEq

/-- The `wl_array_for_each` loop of `handle_key`: scan the bindings in
order; on the first binding whose value is the keysym and whose modifiers
are `SWC_MOD_ANY` or equal the computed modifiers, invoke its handler and
return true.  (The code recomputes `modifiers` from the fixed XKB state on
each value match; the result is the same every iteration, so it is taken
as a parameter here.) -/
def handle_key_scan (time keysym modifiers : ℕ) : List Binding → KeyResult
  | [] => ⟨false, none⟩
  | b :: rest =>
    if b.value = keysym then
      if b.modifiers = SWC_MOD_ANY ∨ b.modifiers = modifiers then
        ⟨true, some (time, keysym, b.data)⟩
      else
        handle_key_scan time keysym modifiers rest
    else
      handle_key_scan time keysym modifiers rest

/-- `handle_key`: on a pressed key, compute the keysym and the
consumed-adjusted modifier mask (external XKB results `keysym` and
`mod_mask` here) and scan the key bindings; on anything but a press,
return false. -/
def handle_key (bindings : List Binding) (idx : XkbIndices) (pressed : Bool)
    (time keysym mod_mask : ℕ) : KeyResult :=
  if pressed then
    handle_key_scan time keysym (modifiers_of_mask idx mod_mask) bindings
  else
    ⟨false, none⟩

/-- The spec's formulation of binding matching: a binding matches iff its
value is the keysym and its modifiers are the `ANY` sentinel or exactly
the effective modifiers. -/
def binding_matches (keysym modifiers : ℕ) (b : Binding) : Bool :=
  b.value == keysym && (b.modifiers == SWC_MOD_ANY || b.modifiers == modifiers)

/-- The spec's formulation of `handle_key`: linear scan, first match wins,
handler called with `(time, keysym, user_data)`, event swallowed iff some
binding matched. -/
def handle_key_by_spec (bindings : List Binding) (idx : XkbIndices) (pressed : Bool)
    (time keysym mod_mask : ℕ) : KeyResult :=
  if pressed then
    match bindings.find? (binding_matches keysym (modifiers_of_mask idx mod_mask)) with
    | some b => ⟨true, some (time, keysym, b.data)⟩
    | none => ⟨false, none⟩
  else
    ⟨false, none⟩

/-! ## Evdev device (`src/libswc/evdev_device.c`) -/

/-- `input-event-codes.h` constants used by the evdev pump. -/
def EV_KEY : ℕ := 1

/-- See `EV_KEY`. -/
def EV_REL : ℕ := 2

/-- See `EV_KEY`. -/
def EV_ABS : ℕ := 3

/-- See `EV_KEY`. -/
def REL_X : ℕ := 0

/-- See `EV_KEY`. -/
def REL_Y : ℕ := 1

/-- See `EV_KEY`. -/
def REL_HWHEEL : ℕ := 6

/-- See `EV_KEY`. -/
def REL_WHEEL : ℕ := 8

/-- See `EV_KEY`. -/
def ABS_X : ℕ := 0

/-- See `EV_KEY`. -/
def ABS_Y : ℕ := 1

/-- See `EV_KEY`. -/
def BTN_MISC : ℕ := 256

/-- See `EV_KEY`. -/
def BTN_GEAR_UP : ℕ := 337

/-- See `EV_KEY`. -/
def BTN_TRIGGER_HAPPY : ℕ := 704

/-- `#define AXIS_STEP_DISTANCE 10`. -/
def AXIS_STEP_DISTANCE : ℤ := 10

/-- Wayland protocol constants. -/
def WL_POINTER_AXIS_VERTICAL_SCROLL : ℕ := 0

/-- See `WL_POINTER_AXIS_VERTICAL_SCROLL`. -/
def WL_POINTER_AXIS_HORIZONTAL_SCROLL : ℕ := 1

/-- See `WL_POINTER_AXIS_VERTICAL_SCROLL`. -/
def WL_POINTER_BUTTON_STATE_RELEASED : ℕ := 0

/-- See `WL_POINTER_AXIS_VERTICAL_SCROLL`. -/
def WL_POINTER_BUTTON_STATE_PRESSED : ℕ := 1

/-- See `WL_POINTER_AXIS_VERTICAL_SCROLL`. -/
def WL_KEYBOARD_KEY_STATE_RELEASED : ℕ := 0

/-- See `WL_POINTER_AXIS_VERTICAL_SCROLL`. -/
def WL_KEYBOARD_KEY_STATE_PRESSED : ℕ := 1

/-- A `struct timeval` with non-negative fields. -/
structure Timeval where
  tv_sec : ℕ
  tv_usec : ℕ
deriving DecidableEq

/-- `timeval_to_msec`: `time->tv_sec * 1000 + time->tv_usec / 1000`
truncated to the `uint32_t` return type. -/
def timeval_to_msec (t : Timeval) : ℕ :=
  (t.tv_sec * 1000 + t.tv_usec / 1000) % 4294967296

/-- A kernel `struct input_event`. -/
structure InputEvent where
  type : ℕ
  code : ℕ
  value : ℤ
  time : Timeval
deriving DecidableEq

/-- Conversion of a C `int` expression to `uint32_t` (reduction mod 2^32). -/
def to_uint32 (i : ℤ) : ℕ := (i % 4294967296).toNat

/-- Reinterpretation of a `uint32_t` bit pattern as the `int32_t` (e.g.
`wl_fixed_t`) with the same bits. -/
def to_int32 (n : ℕ) : ℤ :=
  if n < 2147483648 then (n : ℤ) else (n : ℤ) - 4294967296

/-- `wl_fixed_from_int`: multiply by 256 into the 24.8 fixed-point format,
in `wl_fixed_t` (int32) arithmetic. -/
def wl_fixed_from_int (i : ℤ) : ℤ := to_int32 (to_uint32 (i * 256))

/-- `device->motion.rel`: the relative-motion accumulator. -/
structure RelMotion where
  dx : ℤ
  dy : ℤ
  pending : Bool
deriving DecidableEq

/-- The evdev device state the pump mutates (`device->motion.rel`). -/
structure EvdevDevice where
  motion_rel : RelMotion
deriving DecidableEq

/-- A call into the seat through `device->handler`.  In `axis`, the axis
identifier and the amount are `Option`s: `none` models the corresponding
uninitialized local of `handle_rel_event` reaching the call without having
been assigned. -/
inductive EvdevCallback
  | button : ℕ → ℕ → ℕ → EvdevCallback
  | key : ℕ → ℕ → ℕ → EvdevCallback
  | axis : ℕ → Option ℕ → Option ℕ → EvdevCallback
  | relative_motion : Option ℕ → ℤ → ℤ → EvdevCallback
deriving DecidableEq

/-- `handle_key_event`: classify the code as a button
(`BTN_MISC..BTN_GEAR_UP` or `>= BTN_TRIGGER_HAPPY`) or a keyboard key and
forward it with the pressed/released state. -/
def handle_key_event (d : EvdevDevice) (e : InputEvent) :
    EvdevDevice × List EvdevCallback :=
  let time := timeval_to_msec e.time
  if (BTN_MISC ≤ e.code ∧ e.code ≤ BTN_GEAR_UP) ∨ BTN_TRIGGER_HAPPY ≤ e.code then
    (d, [.button time e.code
          (if e.value ≠ 0 then WL_POINTER_BUTTON_STATE_PRESSED
           else WL_POINTER_BUTTON_STATE_RELEASED)])
  else
    (d, [.key time e.code
          (if e.value ≠ 0 then WL_KEYBOARD_KEY_STATE_PRESSED
           else WL_KEYBOARD_KEY_STATE_RELEASED)])

/-- `handle_rel_event`: `REL_X`/`REL_Y` accumulate into `motion.rel` and
return; every other code falls through the `switch` to the
`device->handler->axis(time, axis, amount)` call, with `axis` and `amount`
assigned only by the `REL_WHEEL`/`REL_HWHEEL` cases (`none` = the local
was left uninitialized). -/
def handle_rel_event (d : EvdevDevice) (e : InputEvent) :
    EvdevDevice × List EvdevCallback :=
  let time := timeval_to_msec e.time
  if e.code = REL_X then
    ({ d with motion_rel :=
        { dx := d.motion_rel.dx + e.value, dy := d.motion_rel.dy, pending := true } }, [])
  else if e.code = REL_Y then
    ({ d with motion_rel :=
        { dx := d.motion_rel.dx, dy := d.motion_rel.dy + e.value, pending := true } }, [])
  else
    let axis_amount : Option ℕ × Option ℕ :=
      if e.code = REL_WHEEL then
        (some WL_POINTER_AXIS_VERTICAL_SCROLL,
         some (to_uint32 (-AXIS_STEP_DISTANCE * wl_fixed_from_int e.value)))
      else if e.code = REL_HWHEEL then
        (some WL_POINTER_AXIS_HORIZONTAL_SCROLL,
         some (to_uint32 (AXIS_STEP_DISTANCE * wl_fixed_from_int e.value)))
      else
        (none, none)
    (d, [.axis time axis_amount.1 axis_amount.2])

/-- `handle_abs_event` is an empty body. -/
def handle_abs_event (d : EvdevDevice) (_e : InputEvent) :
    EvdevDevice × List EvdevCallback :=
  (d, [])

/-- `is_motion_event`. -/
def is_motion_event (e : InputEvent) : Bool :=
  (e.type == EV_REL && (e.code == REL_X || e.code == REL_Y))
  || (e.type == EV_ABS && (e.code == ABS_X || e.code == ABS_Y))

/-- `handle_motion_events`: flush the pending relative motion, if any, as
one `relative_motion` callback and zero the accumulator.  `time` is an
`Option` because the trailing flush of `handle_data` may use the time of
an uninitialized event (`none`). -/
def handle_motion_events (d : EvdevDevice) (time : Option ℕ) :
    EvdevDevice × List EvdevCallback :=
  if d.motion_rel.pending then
    ({ d with motion_rel := { dx := 0, dy := 0, pending := false } },
     [.relative_motion time
        (wl_fixed_from_int d.motion_rel.dx) (wl_fixed_from_int d.motion_rel.dy)])
  else
    (d, [])

/-- The `event_handlers[event.type]` dispatch of `handle_data`
(`EV_KEY`, `EV_REL`, `EV_ABS`; every other type has no handler). -/
def dispatch_event (d : EvdevDevice) (e : InputEvent) :
    EvdevDevice × List EvdevCallback :=
  if e.type = EV_KEY then handle_key_event d e
  else if e.type = EV_REL then handle_rel_event d e
  else if e.type = EV_ABS then handle_abs_event d e
  else (d, [])

/-- One iteration of `handle_data`'s read loop for one event: flush pending
relative motion first when the event is not a motion event, then dispatch
by type. -/
def handle_data_step (acc : EvdevDevice × List EvdevCallback) (e : InputEvent) :
    EvdevDevice × List EvdevCallback :=
  let flushed :=
    if ¬ is_motion_event e then
      handle_motion_events acc.1 (some (timeval_to_msec e.time))
    else
      (acc.1, [])
  let dispatched := dispatch_event flushed.1 e
  (dispatched.1, acc.2 ++ flushed.2 ++ dispatched.2)

/-- Result of one `handle_data` invocation: the device state, the callbacks
made, and the timestamp the trailing `handle_motion_events` call was given —
`none` when the loop exited on `EAGAIN` before any event was read, in which
case the C code evaluates `timeval_to_msec(&event.time)` on the
uninitialized local `event`. -/
structure HandleDataResult where
  device : EvdevDevice
  callbacks : List EvdevCallback
  trailing_time : Option ℕ
deriving DecidableEq

/-- `handle_data`: drain the queued events (the list plays the sequence of
successful `libevdev_next_event` reads before the `EAGAIN` exit), then
flush any still-pending relative motion with the last event's timestamp. -/
def handle_data (d : EvdevDevice) (events : List InputEvent) : HandleDataResult :=
  let drained := events.foldl handle_data_step (d, [])
  let trailing_time := events.getLast?.map fun e => timeval_to_msec e.time
  let flushed := handle_motion_events drained.1 trailing_time
  ⟨flushed.1, drained.2 ++ flushed.2, trailing_time⟩

/-! ## Sample states for concrete instantiations -/

/-- A 4×4 output at the origin with index 0 and empty previous damage. -/
def sample_output : Output := ⟨0, ⟨0, 0, 4, 4⟩, ∅⟩

/-- A compositor with one output, no surfaces, nothing scheduled and no
flip in flight. -/
def sample_compositor : Compositor := ⟨[], [sample_output], ∅, ∅, 0, 0, 0⟩

/-- A 2×2 surface at the origin whose opaque region is its top-left pixel. -/
def sample_surface_a : Surface :=
  ⟨1, ⟨0, 0, 2, 2⟩, ∅, region_rect 0 0 1 1, ∅, false, ⟨0, 0, 2, 2⟩⟩

/-- A 2×2 surface at (2, 0) whose opaque region is its full rectangle. -/
def sample_surface_b : Surface :=
  ⟨2, ⟨2, 0, 2, 2⟩, ∅, region_rect 0 0 2 2, ∅, false, ⟨2, 0, 2, 2⟩⟩

/-- A compositor holding the two sample surfaces, topmost first. -/
def sample_compositor_ab : Compositor :=
  ⟨[sample_surface_a, sample_surface_b], [sample_output], ∅, ∅, 0, 0, 0⟩

/-- The same compositor with the two surfaces in swapped z-order. -/
def sample_compositor_ba : Compositor :=
  ⟨[sample_surface_b, sample_surface_a], [sample_output], ∅, ∅, 0, 0, 0⟩

/-- A compositor with one surface and a flip in flight on output 0. -/
def sample_compositor_flip : Compositor :=
  ⟨[sample_surface_a], [sample_output], ∅, ∅, 0, 1, 0⟩

/-- A compositor with an update already scheduled on output 0. -/
def sample_compositor_sched : Compositor :=
  ⟨[], [sample_output], ∅, ∅, 1, 0, 0⟩

/-- An evdev device with a zeroed motion accumulator, as after
`memset(&device->motion, 0, ...)` in `swc_evdev_device_new`. -/
def sample_device : EvdevDevice := ⟨⟨0, 0, false⟩⟩

/-! ## Bitwise helper lemmas -/

theorem testBit_mask_clear (x y k : ℕ) :
    (mask_clear x y).testBit k = ((x.testBit k) && !(y.testBit k)) := by
  unfold mask_clear
  rw [Nat.testBit_xor, Nat.testBit_land]
  cases x.testBit k <;> cases y.testBit k <;> rfl

theorem mask_clear_zero_right (x : ℕ) : mask_clear x 0 = x := by
  refine Nat.eq_of_testBit_eq fun k => ?_
  rw [testBit_mask_clear, Nat.zero_testBit]
  cases x.testBit k <;> rfl

theorem land_pow_ne_zero_iff (u i : ℕ) :
    u &&& (1 <<< i) ≠ 0 ↔ u.testBit i = true := by
  rw [Nat.shiftLeft_eq, one_mul, Nat.and_two_pow]
  cases h : u.testBit i <;> simp [h]

theorem ne_zero_of_testBit {u i : ℕ} (h : u.testBit i = true) : u ≠ 0 := by
  intro h0
  rw [h0, Nat.zero_testBit] at h
  exact Bool.false_ne_true h

theorem testBit_lor_self (u i : ℕ) : (u ||| 1 <<< i).testBit i = true := by
  rw [Nat.testBit_lor, Nat.shiftLeft_eq, one_mul, Nat.testBit_two_pow_self]
  exact Bool.or_true _

/-! ## C3 -/

/-- C3 counterexample: the claim says the TTY handler marks every output as
scheduled on `VT_ENTER`.  On a compositor with a single output of index 0
and nothing scheduled, the handler leaves the output unscheduled. -/
theorem handle_tty_event_enter_does_not_schedule :
    ¬ ((handle_tty_event sample_compositor .vt_enter).1.scheduled_updates.testBit 0
        = true) := by
  decide

/-- C3 (amended): on every `VT_ENTER` event the TTY handler calls
`drm.set_master` and nothing else — the compositor state is unchanged, and
in particular no output is marked as scheduled for update (there is no
ACTIVE-state flag in the code). -/
theorem handle_tty_event_enter_only_sets_master (c : Compositor) :
    (handle_tty_event c .vt_enter).1 = c
    ∧ (handle_tty_event c .vt_enter).2 = [DrmCall.set_master]
    ∧ (handle_tty_event c .vt_enter).1.scheduled_updates = c.scheduled_updates := by
  exact ⟨rfl, rfl, rfl⟩

/-! ## C4 -/

/-- C4: after `repaint_output` for output `o`, the output's
`previous_damage` is the new frame's damage — the compositor damage
intersected with `o`'s geometry, not the total including the prior frame's
damage — and the compositor damage has the total (new damage united with
the prior `previous_damage`) subtracted. -/
theorem repaint_output_damage_accounting (c : Compositor) (o : Output) :
    (repaint_output c o).2.previous_damage = c.damage ∩ rect_of o.geometry
    ∧ (repaint_output c o).1.damage
        = c.damage \ ((c.damage ∩ rect_of o.geometry) ∪ o.previous_damage) := by
  exact ⟨rfl, rfl⟩

/-! ## C9 -/

/-- C9: the claim says the trailing relative-motion flush timestamp is
well-defined for every invocation of the evdev read handler.  When the read
loop exits on `EAGAIN` before any event was read, the code evaluates
`timeval_to_msec(&event.time)` on the uninitialized local `event`: the
model records the flush timestamp as `none`.  (No callback is emitted only
because `motion.rel.pending` is false on entry.) -/
theorem handle_data_no_events_reads_undefined_time :
    (handle_data sample_device []).trailing_time = none
    ∧ (handle_data sample_device []).callbacks = [] := by
  exact ⟨rfl, rfl⟩

/-! ## C1 -/

theorem calculate_damage_pending_flips (c : Compositor) :
    (calculate_damage c).pending_flips = c.pending_flips := rfl

theorem calculate_damage_scheduled_updates (c : Compositor) :
    (calculate_damage c).scheduled_updates = c.scheduled_updates := rfl

theorem calculate_damage_outputs (c : Compositor) :
    (calculate_damage c).outputs = c.outputs := rfl

theorem repaint_output_pending_flips (c : Compositor) (o : Output) :
    (repaint_output c o).1.pending_flips = c.pending_flips := rfl

theorem repaint_output_scheduled_updates (c : Compositor) (o : Output) :
    (repaint_output c o).1.scheduled_updates = c.scheduled_updates := rfl

theorem repaint_scheduled_spec (u : ℕ) :
    ∀ (outs : List Output) (c : Compositor),
      (repaint_scheduled c u outs).1.pending_flips = c.pending_flips
      ∧ (repaint_scheduled c u outs).1.scheduled_updates = c.scheduled_updates
      ∧ (repaint_scheduled c u outs).2.2
          = (outs.filter fun o => u.testBit o.id).map Output.id := by
  intro outs
  induction outs with
  | nil => intro c; exact ⟨rfl, rfl, rfl⟩
  | cons o rest ih =>
    intro c
    by_cases h : u &&& SWC_OUTPUT_MASK o ≠ 0
    · have hb : u.testBit o.id = true := (land_pow_ne_zero_iff _ _).mp h
      obtain ⟨h1, h2, h3⟩ := ih (repaint_output c o).1
      exact ⟨by simp [repaint_scheduled, h, h1, repaint_output_pending_flips],
             by simp [repaint_scheduled, h, h2, repaint_output_scheduled_updates],
             by simp [repaint_scheduled, h, h3, hb, List.filter_cons]⟩
    · have hb : u.testBit o.id = false := by
        have := mt (land_pow_ne_zero_iff u o.id).mpr h
        rwa [Bool.not_eq_true] at this
      obtain ⟨h1, h2, h3⟩ := ih c
      exact ⟨by simp [repaint_scheduled, h, h1],
             by simp [repaint_scheduled, h, h2],
             by simp [repaint_scheduled, h, h3, hb, List.filter_cons]⟩

/-- C1: one invocation of `perform_update` services exactly
`U = scheduled_updates & ~pending_flips`: when `U` is empty the call
returns with no repaint and no state change; otherwise the damage
calculation runs, exactly the outputs whose bit is in `U` are repainted
(in list order), and afterwards `pending_flips` has `U`'s bits added while
`scheduled_updates` has `U`'s bits cleared. -/
theorem perform_update_services_unblocked_updates (c : Compositor) :
    (perform_update c).st.pending_flips
        = c.pending_flips ||| mask_clear c.scheduled_updates c.pending_flips
    ∧ (perform_update c).st.scheduled_updates
        = mask_clear c.scheduled_updates (mask_clear c.scheduled_updates c.pending_flips)
    ∧ (perform_update c).repainted
        = (c.outputs.filter fun o =>
            (mask_clear c.scheduled_updates c.pending_flips).testBit o.id).map Output.id
    ∧ ((perform_update c).ran_damage_calc = true
        ↔ mask_clear c.scheduled_updates c.pending_flips ≠ 0)
    ∧ (mask_clear c.scheduled_updates c.pending_flips = 0 → (perform_update c).st = c) := by
  by_cases h : mask_clear c.scheduled_updates c.pending_flips ≠ 0
  · obtain ⟨h1, h2, h3⟩ :=
      repaint_scheduled_spec (mask_clear c.scheduled_updates c.pending_flips)
        (calculate_damage c).outputs (calculate_damage c)
    refine ⟨?_, ?_, ?_, ?_, ?_⟩
    · simp [perform_update, h, h1, calculate_damage_pending_flips]
    · simp [perform_update, h, h2, calculate_damage_scheduled_updates]
    · have hrep : (perform_update c).repainted
          = (repaint_scheduled (calculate_damage c)
              (mask_clear c.scheduled_updates c.pending_flips)
              (calculate_damage c).outputs).2.2 := by
        simp [perform_update, h]
      rw [hrep, h3, calculate_damage_outputs]
    · simp [perform_update, h]
    · intro h0; exact absurd h0 h
  · rw [not_ne_iff] at h
    refine ⟨?_, ?_, ?_, ?_, fun _ => ?_⟩
    · simp [perform_update, h]
    · simp [perform_update, h, mask_clear_zero_right]
    · simp [perform_update, h, Nat.zero_testBit]
    · simp [perform_update, h]
    · simp [perform_update, h]

/-- C1 witness: on a compositor with nothing scheduled, `U` is empty and
`perform_update` changes nothing. -/
theorem perform_update_services_unblocked_updates_witness :
    (perform_update sample_compositor).st = sample_compositor :=
  (perform_update_services_unblocked_updates sample_compositor).2.2.2.2 (by decide)

/-! ## C7 -/

theorem handle_key_scan_eq_find (time keysym modifiers : ℕ) (bindings : List Binding) :
    handle_key_scan time keysym modifiers bindings
      = match bindings.find? (binding_matches keysym modifiers) with
        | some b => ⟨true, some (time, keysym, b.data)⟩
        | none => ⟨false, none⟩ := by
  induction bindings with
  | nil => rfl
  | cons b rest ih =>
    by_cases hv : b.value = keysym
    · by_cases hm : b.modifiers = SWC_MOD_ANY ∨ b.modifiers = modifiers
      · have hp : binding_matches keysym modifiers b = true := by
          simp [binding_matches, hv]
          rcases hm with hm | hm <;> simp [hm]
        simp [handle_key_scan, hv, hm, List.find?_cons_of_pos _ hp]
      · have hp : binding_matches keysym modifiers b = false := by
          simp [binding_matches, hv]
          constructor
          · intro hc; exact hm (Or.inl hc)
          · intro hc; exact hm (Or.inr hc)
        simp [handle_key_scan, hv, hm, List.find?_cons_of_neg, hp, ih]
    · have hp : binding_matches keysym modifiers b = false := by
        simp [binding_matches, hv]
      simp [handle_key_scan, hv, List.find?_cons_of_neg, hp, ih]

/-- C7: on a pressed key, `handle_key` behaves exactly as the spec's
linear-scan formulation: a binding matches iff its value equals the keysym
and its modifiers are the `ANY` sentinel or equal the effective modifiers
derived from the consumed-adjusted mask; the first matching binding wins
and its handler is called with `(time, keysym, user_data)`; the event is
swallowed (true returned) exactly when some binding matched, and never on
a non-press. -/
theorem handle_key_first_match_wins (bindings : List Binding) (idx : XkbIndices)
    (pressed : Bool) (time keysym mod_mask : ℕ) :
    handle_key bindings idx pressed time keysym mod_mask
      = handle_key_by_spec bindings idx pressed time keysym mod_mask
    ∧ (handle_key bindings idx pressed time keysym mod_mask).handled
      = (pressed
         && bindings.any (binding_matches keysym (modifiers_of_mask idx mod_mask))) := by
  have he : handle_key bindings idx pressed time keysym mod_mask
      = handle_key_by_spec bindings idx pressed time keysym mod_mask := by
    unfold handle_key handle_key_by_spec
    cases pressed
    · rfl
    · simp only [if_true]
      exact handle_key_scan_eq_find time keysym (modifiers_of_mask idx mod_mask) bindings
  refine ⟨he, ?_⟩
  rw [he]
  unfold handle_key_by_spec
  cases pressed
  · rfl
  · simp only [if_true, Bool.true_and]
    cases hf : bindings.find? (binding_matches keysym (modifiers_of_mask idx mod_mask)) with
    | some b =>
      have : bindings.any (binding_matches keysym (modifiers_of_mask idx mod_mask)) = true :=
        List.any_eq_true.mpr ⟨b, List.mem_of_find?_eq_some hf, List.find?_some hf⟩
      simp [this]
    | none =>
      have : bindings.any (binding_matches keysym (modifiers_of_mask idx mod_mask)) = false := by
        rw [Bool.eq_false_iff]
        intro hany
        obtain ⟨x, hx, hpx⟩ := List.any_eq_true.mp hany
        exact absurd hpx (by simpa using List.find?_eq_none.mp hf x hx)
      simp [this]

/-! ## C6 -/

theorem schedule_update_already_set (c : Compositor) (o : Output)
    (h : c.scheduled_updates.testBit o.id = true) :
    swc_compositor_schedule_update c o = c := by
  unfold swc_compositor_schedule_update
  rw [if_pos]
  exact (land_pow_ne_zero_iff _ _).mpr h

theorem schedule_update_sets_bit (c : Compositor) (o : Output) :
    (swc_compositor_schedule_update c o).scheduled_updates.testBit o.id = true := by
  unfold swc_compositor_schedule_update
  split
  · next h => exact (land_pow_ne_zero_iff _ _).mp h
  · by_cases h2 : (c.scheduled_updates != 0) = true <;>
      simp [h2, SWC_OUTPUT_MASK, testBit_lor_self]

theorem schedule_update_scheduled_ne_zero (c : Compositor) (o : Output) :
    (swc_compositor_schedule_update c o).scheduled_updates ≠ 0 :=
  ne_zero_of_testBit (schedule_update_sets_bit c o)

theorem schedule_update_no_enqueue (c : Compositor) (o : Output)
    (h : c.scheduled_updates ≠ 0) :
    (swc_compositor_schedule_update c o).idle_enqueued = c.idle_enqueued := by
  unfold swc_compositor_schedule_update
  have hb : (c.scheduled_updates != 0) = true := by simpa [bne_iff_ne] using h
  split
  · rfl
  · rw [hb]
    rfl

theorem schedule_update_enqueue_le (c : Compositor) (o : Output) :
    (swc_compositor_schedule_update c o).idle_enqueued ≤ c.idle_enqueued + 1 := by
  unfold swc_compositor_schedule_update
  split
  · exact Nat.le_succ _
  · by_cases h2 : (c.scheduled_updates != 0) = true <;> simp [h2]

theorem foldl_schedule_no_enqueue (os : List Output) :
    ∀ c : Compositor, c.scheduled_updates ≠ 0 →
      (os.foldl swc_compositor_schedule_update c).idle_enqueued = c.idle_enqueued := by
  induction os with
  | nil => intro c _; rfl
  | cons o rest ih =>
    intro c h
    calc (rest.foldl swc_compositor_schedule_update
            (swc_compositor_schedule_update c o)).idle_enqueued
        = (swc_compositor_schedule_update c o).idle_enqueued :=
          ih _ (schedule_update_scheduled_ne_zero c o)
      _ = c.idle_enqueued := schedule_update_no_enqueue c o h

/-- C6: scheduling an update twice on the same output with no intervening
idle tick equals scheduling it once (the second call returns early on the
already-set bit); an idle task is enqueued only when `scheduled_updates`
was previously zero; and across any sequence of `schedule_update` calls
with no flip completions intervening, at most one idle task is enqueued. -/
theorem schedule_update_idempotent_single_idle :
    (∀ (c : Compositor) (o : Output),
       swc_compositor_schedule_update (swc_compositor_schedule_update c o) o
         = swc_compositor_schedule_update c o)
    ∧ (∀ (c : Compositor) (o : Output), c.scheduled_updates ≠ 0 →
       (swc_compositor_schedule_update c o).idle_enqueued = c.idle_enqueued)
    ∧ (∀ (c : Compositor) (os : List Output),
       (os.foldl swc_compositor_schedule_update c).idle_enqueued
         ≤ c.idle_enqueued + 1) := by
  refine ⟨fun c o => schedule_update_already_set _ o (schedule_update_sets_bit c o),
          fun c o h => schedule_update_no_enqueue c o h,
          fun c os => ?_⟩
  cases os with
  | nil => exact Nat.le_succ _
  | cons o rest =>
    calc (rest.foldl swc_compositor_schedule_update
            (swc_compositor_schedule_update c o)).idle_enqueued
        = (swc_compositor_schedule_update c o).idle_enqueued :=
          foldl_schedule_no_enqueue rest _ (schedule_update_scheduled_ne_zero c o)
      _ ≤ c.idle_enqueued + 1 := schedule_update_enqueue_le c o

/-- C6 witness: with an update already scheduled (`scheduled_updates = 1`),
a further `schedule_update` call enqueues no idle task. -/
theorem schedule_update_idempotent_single_idle_witness :
    (swc_compositor_schedule_update sample_compositor_sched sample_output).idle_enqueued
      = sample_compositor_sched.idle_enqueued :=
  schedule_update_idempotent_single_idle.2.1 sample_compositor_sched sample_output
    (by decide)

/-! ## C2 -/

/-- C2: on a `PAGE_FLIP` for an output whose bit is pending (spec invariant
2: every pending bit corresponds to an outstanding flip), frame callbacks
go to every surface iff `pending_flips` transitions from non-zero to zero
by the clearing of that output's bit; otherwise no callback is sent; and
when they are sent, each surface receives exactly as many callbacks as it
occurs in the surface list — once for a surface listed once. -/
theorem handle_drm_flip_frame_callbacks (c : Compositor) (oid t : ℕ)
    (h : c.pending_flips.testBit oid = true) :
    ((handle_drm_event c oid t).fired = true
      ↔ (c.pending_flips ≠ 0 ∧ mask_clear c.pending_flips (1 <<< oid) = 0))
    ∧ ((handle_drm_event c oid t).callbacks
        = if c.pending_flips ≠ 0 ∧ mask_clear c.pending_flips (1 <<< oid) = 0
          then c.surfaces.map (fun s => (s.id, t)) else [])
    ∧ (∀ sid : ℕ, (handle_drm_event c oid t).callbacks.count (sid, t)
        = if c.pending_flips ≠ 0 ∧ mask_clear c.pending_flips (1 <<< oid) = 0
          then (c.surfaces.map Surface.id).count sid else 0) := by
  have hne : c.pending_flips ≠ 0 := ne_zero_of_testBit h
  have hcount : ∀ (l : List ℕ) (sid : ℕ),
      ((l.map fun i => (i, t)).count (sid, t)) = l.count sid := by
    intro l sid
    induction l with
    | nil => rfl
    | cons a l ih => simp [List.count_cons, ih, Prod.ext_iff]
  by_cases hp : mask_clear c.pending_flips (1 <<< oid) = 0
  · refine ⟨by simp [handle_drm_event, hp, hne], by simp [handle_drm_event, hp, hne], ?_⟩
    intro sid
    have hmap : c.surfaces.map (fun s => (s.id, t))
        = (c.surfaces.map Surface.id).map (fun i => (i, t)) := by
      rw [List.map_map]
      rfl
    have hcb : (handle_drm_event c oid t).callbacks
        = c.surfaces.map (fun s => (s.id, t)) := by
      simp [handle_drm_event, hp, hne]
    calc (handle_drm_event c oid t).callbacks.count (sid, t)
        = ((c.surfaces.map Surface.id).map (fun i : ℕ => (i, t))).count (sid, t) := by
          rw [hcb, hmap]
      _ = (c.surfaces.map Surface.id).count sid := hcount _ sid
      _ = if c.pending_flips ≠ 0 ∧ mask_clear c.pending_flips (1 <<< oid) = 0
          then (c.surfaces.map Surface.id).count sid else 0 := by
          rw [if_pos ⟨hne, hp⟩]
  · refine ⟨by simp [handle_drm_event, hp, hne], by simp [handle_drm_event, hp, hne], ?_⟩
    intro sid
    simp [handle_drm_event, hp, hne]

/-- C2 witness: the spec's S2 scenario — one surface, one output, a flip
pending on output 0; its `PAGE_FLIP` at time 42 drops `pending_flips` to
zero and delivers the frame callback to the surface at time 42. -/
theorem handle_drm_flip_frame_callbacks_witness :
    (handle_drm_event sample_compositor_flip 0 42).fired = true
    ∧ (handle_drm_event sample_compositor_flip 0 42).callbacks = [(1, 42)] := by
  have h := handle_drm_flip_frame_callbacks sample_compositor_flip 0 42 (by decide)
  constructor
  · exact h.1.mpr ⟨by decide, by decide⟩
  · rw [h.2.1, if_pos ⟨by decide, by decide⟩]
    decide

/-! ## C8 -/

theorem to_int32_to_uint32 (x : ℤ) (h1 : -2147483648 ≤ x) (h2 : x < 2147483648) :
    to_int32 (to_uint32 x) = x := by
  unfold to_int32 to_uint32
  split <;> omega

theorem wl_fixed_from_int_small (i : ℤ) (h1 : -8388608 ≤ i) (h2 : i < 8388608) :
    wl_fixed_from_int i = i * 256 := by
  unfold wl_fixed_from_int
  exact to_int32_to_uint32 _ (by omega) (by omega)

theorem wheel_amount_eq (v : ℤ) (hv : v.natAbs ≤ 1000) :
    to_uint32 (-AXIS_STEP_DISTANCE * wl_fixed_from_int v) = to_uint32 (-2560 * v) := by
  rw [wl_fixed_from_int_small v (by omega) (by omega)]
  unfold AXIS_STEP_DISTANCE
  congr 1
  ring

theorem hwheel_amount_eq (v : ℤ) (hv : v.natAbs ≤ 1000) :
    to_uint32 (AXIS_STEP_DISTANCE * wl_fixed_from_int v) = to_uint32 (2560 * v) := by
  rw [wl_fixed_from_int_small v (by omega) (by omega)]
  unfold AXIS_STEP_DISTANCE
  congr 1
  ring

/-- C8: an `EV_REL` event with code `REL_WHEEL` and value `v` at time
`(sec, usec)` produces exactly one axis callback, at time
`sec*1000 + usec/1000` (as uint32), on the vertical-scroll axis, with
amount the uint32 bit pattern of `-10 * 256 * v` — whose int32 reading is
`-2560 * v`, so `v = +1` yields `-2560`; for `REL_HWHEEL` the amount is
`+10 * 256 * v` on the horizontal-scroll axis.  (Bound on `v`: no 32-bit
overflow in the fixed-point product.) -/
theorem handle_rel_event_wheel (d : EvdevDevice) (sec usec : ℕ) (v : ℤ)
    (hv : v.natAbs ≤ 1000) :
    (handle_rel_event d ⟨EV_REL, REL_WHEEL, v, ⟨sec, usec⟩⟩
      = (d, [EvdevCallback.axis ((sec * 1000 + usec / 1000) % 4294967296)
             (some WL_POINTER_AXIS_VERTICAL_SCROLL) (some (to_uint32 (-2560 * v)))]))
    ∧ to_int32 (to_uint32 (-2560 * v)) = -2560 * v
    ∧ (handle_rel_event d ⟨EV_REL, REL_HWHEEL, v, ⟨sec, usec⟩⟩
      = (d, [EvdevCallback.axis ((sec * 1000 + usec / 1000) % 4294967296)
             (some WL_POINTER_AXIS_HORIZONTAL_SCROLL) (some (to_uint32 (2560 * v)))]))
    ∧ to_int32 (to_uint32 (2560 * v)) = 2560 * v := by
  refine ⟨?_, to_int32_to_uint32 _ (by omega) (by omega),
          ?_, to_int32_to_uint32 _ (by omega) (by omega)⟩
  · simp only [handle_rel_event, REL_X, REL_Y, REL_WHEEL, REL_HWHEEL,
      timeval_to_msec, wheel_amount_eq v hv]
    norm_num
  · simp only [handle_rel_event, REL_X, REL_Y, REL_WHEEL, REL_HWHEEL,
      timeval_to_msec, hwheel_amount_eq v hv]
    norm_num

/-- C8 witness: the spec's S6 scenario — `REL_WHEEL`, value `+1`, at
`(1, 500000)`: axis callback at time 1500, vertical axis, amount bit
pattern 4294964736, i.e. `-2560` as a 24.8 fixed-point int32. -/
theorem handle_rel_event_wheel_witness :
    (handle_rel_event sample_device ⟨EV_REL, REL_WHEEL, 1, ⟨1, 500000⟩⟩).2
      = [EvdevCallback.axis 1500 (some 0) (some 4294964736)]
    ∧ to_int32 4294964736 = -2560 := by
  have h := handle_rel_event_wheel sample_device 1 500000 1 (by decide)
  constructor
  · rw [h.1]
    decide
  · have h2 := h.2.1
    have ha : to_uint32 (-2560 * 1) = 4294964736 := by decide
    rw [ha] at h2
    simpa using h2

/-! ## C10 -/

/-- C10: the claim says the axis callback is never reached with the local
`axis` and `amount` variables unassigned.  An `EV_REL` event with code
`REL_Z = 2` (neither `REL_X`, `REL_Y`, `REL_WHEEL` nor `REL_HWHEEL`) falls
through the `switch` of `handle_rel_event` and reaches the
`device->handler->axis` call with both locals uninitialized (`none`). -/
theorem handle_rel_event_rel_z_uninitialized_axis :
    (handle_rel_event sample_device ⟨EV_REL, 2, 1, ⟨0, 0⟩⟩).2
      = [EvdevCallback.axis 0 none none] := by
  decide

/-! ## C5 -/

theorem foldl_calc_opaque_acc (l : List Surface) :
    ∀ acc : CalcAcc, (l.foldl calc_damage_step acc).opaque_region
      = acc.opaque_region ∪ union_list (l.map translated_opaque_region) := by
  induction l with
  | nil => intro acc; simp [union_list]
  | cons s rest ih =>
    intro acc
    rw [List.foldl_cons, ih]
    by_cases hd : s.state_damage ≠ ∅ <;> by_cases hb : s.border_damaged <;>
      simp [calc_damage_step, union_list, hd, hb, Finset.union_assoc]

theorem foldl_calc_surfaces (l : List Surface) :
    ∀ acc : CalcAcc, (l.foldl calc_damage_step acc).surfaces
      = acc.surfaces ++ clip_annotate acc.opaque_region l := by
  induction l with
  | nil => intro acc; simp [clip_annotate]
  | cons s rest ih =>
    intro acc
    rw [List.foldl_cons, ih]
    by_cases hd : s.state_damage ≠ ∅ <;> by_cases hb : s.border_damaged <;>
      simp [calc_damage_step, clip_annotate, hd, hb]

theorem clip_annotate_length (l : List Surface) :
    ∀ op : Region, (clip_annotate op l).length = l.length := by
  induction l with
  | nil => intro op; rfl
  | cons s rest ih => intro op; simp [clip_annotate, ih]

theorem clip_annotate_get (l : List Surface) :
    ∀ (op : Region) (i : ℕ) (h : i < (clip_annotate op l).length),
      ((clip_annotate op l).get ⟨i, h⟩).clip
        = op ∪ union_list ((l.take i).map translated_opaque_region) := by
  induction l with
  | nil => intro op i h; simp [clip_annotate] at h
  | cons s rest ih =>
    intro op i h
    cases i with
    | zero => simp [clip_annotate, union_list]
    | succ i =>
      have hrec := ih (op ∪ translated_opaque_region s) i
        (by simpa [clip_annotate] using h)
      simp only [clip_annotate, List.get_cons_succ] at h ⊢
      rw [hrec]
      simp [union_list, Finset.union_assoc]

theorem union_list_perm {l₁ l₂ : List Region} (h : l₁.Perm l₂) :
    union_list l₁ = union_list l₂ := by
  induction h with
  | nil => rfl
  | cons x _ ih =>
    simp only [union_list, List.foldr_cons] at ih ⊢
    rw [ih]
  | swap x y l =>
    simp only [union_list, List.foldr_cons]
    rw [← Finset.union_assoc, ← Finset.union_assoc, Finset.union_comm y x]
  | trans _ _ ih₁ ih₂ => rw [ih₁, ih₂]

/-- C5: after the damage calculation, the compositor opaque region is the
union of all surfaces' translated opaque regions — independent of the
z-order of the surface list — and each surface's class-state clip is the
union of the translated opaque regions of exactly the surfaces above it
(the prefix of the front-to-back list before it), so clip excludes the
occlusion contributed by the surface itself and by surfaces below it. -/
theorem calculate_damage_opaque_and_clip (c : Compositor) :
    ((calculate_damage c).opaque_region
        = union_list (c.surfaces.map translated_opaque_region))
    ∧ (∀ c' : Compositor, c.surfaces.Perm c'.surfaces →
        (calculate_damage c).opaque_region = (calculate_damage c').opaque_region)
    ∧ (∀ i : Fin (calculate_damage c).surfaces.length,
        ((calculate_damage c).surfaces.get i).clip
          = union_list ((c.surfaces.take i.val).map translated_opaque_region)) := by
  have hop : ∀ cc : Compositor, (calculate_damage cc).opaque_region
      = union_list (cc.surfaces.map translated_opaque_region) := by
    intro cc
    show (cc.surfaces.foldl calc_damage_step ⟨∅, cc.damage, []⟩).opaque_region = _
    rw [foldl_calc_opaque_acc]
    exact Finset.empty_union _
  refine ⟨hop c, ?_, ?_⟩
  · intro c' hperm
    rw [hop c, hop c', union_list_perm (hperm.map translated_opaque_region)]
  · intro i
    have hsurf : (calculate_damage c).surfaces = clip_annotate ∅ c.surfaces := by
      show (c.surfaces.foldl calc_damage_step ⟨∅, c.damage, []⟩).surfaces = _
      rw [foldl_calc_surfaces]
      exact List.nil_append _
    rw [List.get_of_eq hsurf i, clip_annotate_get]
    exact Finset.empty_union _

/-- C5 witness: on the two-surface compositor, reordering the surface list
leaves the computed opaque region unchanged. -/
theorem calculate_damage_opaque_and_clip_witness :
    (calculate_damage sample_compositor_ab).opaque_region
      = (calculate_damage sample_compositor_ba).opaque_region :=
  (calculate_damage_opaque_and_clip sample_compositor_ab).2.1 sample_compositor_ba
    (List.Perm.swap sample_surface_b sample_surface_a [])

end Swc
